import Mathlib

/-! Shallow embedding of the GoldTracker session bookkeeping
(`src/GoldTracker/_session_manager.py`), the zone-picker filtering
(`src/GoldTracker/_gump_manager.py`), the zone directory
(`src/GoldTracker/_zone_manager.py`) and the relevant call sites in
`src/GoldTracker/gold_tracker.py`.

Modelling conventions:
* `datetime` values are integers of whole seconds; `strftime("%Y-%m-%d
  %H:%M:%S")` is injective at one-second resolution, so CSV timestamp
  columns are kept as `Int` (with `Option Int` where the column may be
  the empty string).
* A Python call either returns a value or raises; methods whose body can
  raise to the caller (or swallow an internal exception) are given an
  `Except PyError` result or an explicit error branch.  `int(text)` on a
  non-numeric CSV field is the one internal raiser in the session
  manager; a row whose `session_id` field does not parse is modelled as
  `session_id = none`.
* CSV files are lists of rows; a `Ledger.rows = none` models a missing
  (or unreadable) log file.
-/

namespace GoldTracker

/-- Exception vocabulary.  `valueError` and `typeError` are raised by the
Python runtime (`int(...)` on a bad string, calling a function with a
surplus argument).  `noActiveSessionError` and `activeSessionExistsError`
are the error types named by the specification; the source defines no
such exception classes. -/
inductive PyError where
  | valueError
  | typeError
  | noActiveSessionError
  | activeSessionExistsError
deriving DecidableEq

/-- The `current_session` dict created by `SessionManager.start_session`
(`_session_manager.py` lines 76-90). -/
structure Session where
  session_id : Int
  zone : String
  start_time : Int
  end_time : Option Int
  initial_gold : Int
  gold_looted : Int
  deaths : Int
  insurance_cost : Int
  manual_adjustments : Int
  notes : String
  paused : Bool
  paused_started_at : Option Int
  paused_total_seconds : Int
deriving DecidableEq

/-- One CSV row of the durable session log, in the column order written by
`_format_session_for_csv`.  `session_id = none` models a row whose id
field does not parse as an integer; `end_time = none` models the empty
string written while a session is ongoing. -/
structure Row where
  session_id : Option Int
  zone : String
  start_time : Int
  end_time : Option Int
  session_duration : String
  paused_time : String
  gold_gained : Int
  deaths : Int
  insurance_cost : Int
  net_profit : Int
  notes : String
  merged : String
  merged_from : String
deriving DecidableEq

/-- The `SessionManager` state: the log file's rows (`none` = missing
file), the in-memory `current_session`, and `next_session_id`. -/
structure Ledger where
  rows : Option (List Row)
  current_session : Option Session
  next_session_id : Int
deriving DecidableEq

/-- Two-digit zero-padded formatting for the fields of `fmt_hms`. -/
def pad2 (n : Int) : String :=
  if 0 ≤ n ∧ n < 10 then "0" ++ toString n else toString n

/-- The nested `fmt_hms` helper of `_format_session_for_csv` /
`get_session_data`: hours, minutes, seconds with Python floor division
and nonnegative remainder. -/
def fmt_hms (sec : Int) : String :=
  pad2 (Int.fdiv sec 3600) ++ ":" ++ pad2 (Int.fdiv (Int.emod sec 3600) 60)
    ++ ":" ++ pad2 (Int.emod sec 60)

/-- Model of `SessionManager._format_session_for_csv` (lines 413-463): formats the
current session as a CSV row; with `ongoing = true` the end time column is
empty and `now` stands in for the end time in the arithmetic. -/
def _format_session_for_csv (s : Session) (now : Int) (ongoing : Bool) : Row :=
  let end_time : Int := if ongoing then now else (s.end_time).getD now
  let paused_seconds : Int :=
    s.paused_total_seconds +
      (if s.paused then
          match s.paused_started_at with
          | some st => end_time - st
          | none => 0
        else 0)
  let total_seconds : Int := max 0 ((end_time - s.start_time) - paused_seconds)
  let gold_gained := s.gold_looted + s.manual_adjustments
  let total_insurance := s.deaths * s.insurance_cost
  { session_id := some s.session_id
    zone := s.zone
    start_time := s.start_time
    end_time := if ongoing then none else some end_time
    session_duration := fmt_hms total_seconds
    paused_time := fmt_hms paused_seconds
    gold_gained := gold_gained
    deaths := s.deaths
    insurance_cost := total_insurance
    net_profit := gold_gained - total_insurance
    notes := s.notes
    merged := "false"
    merged_from := "" }

/-- The id-scan loop of `SessionManager._get_next_id` (lines 54-72):
`max_id = 0`, then `max_id = max(max_id, int(row["session_id"]))` per row,
skipping rows whose id does not parse. -/
def maxIdAux (acc : Int) : List Row → Int
  | [] => acc
  | r :: rs =>
    maxIdAux (match r.session_id with
              | some i => max acc i
              | none => acc) rs

/-- Model of `SessionManager._get_next_id` (lines 54-72): scan the log for the
highest stored id (0 when the file is missing or unreadable) and add
one. -/
def _get_next_id (rows : Option (List Row)) : Int :=
  (match rows with
   | none => 0
   | some rs => maxIdAux 0 rs) + 1

/-- A fresh `SessionManager.__init__` over a given log file: no current
session, `next_session_id` derived by `_get_next_id`, and the CSV created
(empty) when missing (`_ensure_csv_exists`). -/
def initLedger (fileRows : Option (List Row)) : Ledger :=
  { rows := some (fileRows.getD [])
    current_session := none
    next_session_id := _get_next_id fileRows }

/-- Model of `SessionManager.start_session` (lines 74-107) together with
`_write_initial_csv_row` (lines 109-148): unconditionally installs a fresh
session dict (there is no check for an already-active session), increments
`next_session_id`, and appends a provisional ongoing row to the log.  The
body contains no `raise`, so the call always returns. -/
def start_session (L : Ledger) (zone : String) (initial_gold : Int) (now : Int) :
    Except PyError (Ledger × Session) :=
  let s : Session :=
    { session_id := L.next_session_id
      zone := zone
      start_time := now
      end_time := none
      initial_gold := initial_gold
      gold_looted := 0
      deaths := 0
      insurance_cost := 0
      manual_adjustments := 0
      notes := ""
      paused := false
      paused_started_at := none
      paused_total_seconds := 0 }
  let rows := (L.rows).getD []
  .ok ({ L with
          current_session := some s
          next_session_id := L.next_session_id + 1
          rows := some (rows ++ [_format_session_for_csv s now true]) }, s)

/-- The session mutation done by `GoldTracker.update_gold_tracking`
(`gold_tracker.py` lines 855-858) when a loot delta is detected:
`session["gold_looted"] += gold_looted`. -/
def apply_gold_delta_s (s : Session) (d : Int) : Session :=
  { s with gold_looted := s.gold_looted + d }

/-- The session mutation done by `GoldTracker.process_manual_adjustment`
(`gold_tracker.py` lines 897-900): `session["manual_adjustments"] +=
adjustment`. -/
def apply_manual_adjustment_s (s : Session) (a : Int) : Session :=
  { s with manual_adjustments := s.manual_adjustments + a }

/-- The session mutation done by `GoldTracker.on_player_death`
(`gold_tracker.py` lines 829-830): `session["deaths"] += 1`. -/
def record_death_s (s : Session) : Session :=
  { s with deaths := s.deaths + 1 }

/-- Model of `SessionManager.toggle_pause` (lines 162-178) on a session dict: flip
the flag, record `paused_started_at = now` on entering pause, accumulate
`now - paused_started_at` into `paused_total_seconds` on leaving it.
Returns the session together with the new `paused` value. -/
def toggle_pause_s (s : Session) (now : Int) : Session × Bool :=
  let s' : Session :=
    if s.paused then
      let total :=
        match s.paused_started_at with
        | some st => s.paused_total_seconds + (now - st)
        | none => s.paused_total_seconds
      { s with paused := false, paused_started_at := none,
               paused_total_seconds := total }
    else
      { s with paused := true, paused_started_at := some now }
  (s', s'.paused)

/-- Model of `SessionManager.toggle_pause` at the manager level: returns `False`
and changes nothing when no session is active. -/
def toggle_pause (L : Ledger) (now : Int) : Ledger × Bool :=
  match L.current_session with
  | none => (L, false)
  | some s =>
    let p := toggle_pause_s s now
    ({ L with current_session := some p.1 }, p.2)

/-- Model of `GoldTracker.update_gold_tracking` (lines 852-858) at the manager
level (via `update_session_data`, lines 150-160): when no session is
active the call logs a warning and returns, mutating nothing; the body
contains no `raise`, so the call always returns. -/
def apply_gold_delta (L : Ledger) (d : Int) : Except PyError Ledger :=
  .ok (match L.current_session with
       | none => L
       | some s => { L with current_session := some (apply_gold_delta_s s d) })

/-- Model of `GoldTracker.process_manual_adjustment` (lines 896-900) at the
manager level: a silent no-op when no session is active; no `raise`. -/
def apply_manual_adjustment (L : Ledger) (a : Int) : Except PyError Ledger :=
  .ok (match L.current_session with
       | none => L
       | some s => { L with current_session := some (apply_manual_adjustment_s s a) })

/-- Model of `GoldTracker.on_player_death` (lines 820-839) at the manager level:
when no session is active it logs `DEATH NO_SESSION` and returns,
mutating nothing; no `raise` reaches the caller. -/
def record_death (L : Ledger) : Except PyError Ledger :=
  .ok (match L.current_session with
       | none => L
       | some s => { L with current_session := some (record_death_s s) })

/-- The update-or-append scan of `SessionManager.end_session` (lines
252-261) and `mark_finished_now` (lines 366-374): replace the first row
whose id parses equal to `sid` (a `row.update` with the full formatted
dict rewrites every field) and `break`; `int(...)` on an unparsable id
field raises before a match is found. -/
def updateFirst (sid : Int) (newRow : Row) : List Row → Except PyError (List Row × Bool)
  | [] => .ok ([], false)
  | r :: rs =>
    match r.session_id with
    | none => .error .valueError
    | some i =>
      if i = sid then .ok (newRow :: rs, true)
      else
        match updateFirst sid newRow rs with
        | .error e => .error e
        | .ok p => .ok (r :: p.1, p.2)

/-- The scan of `SessionManager.auto_save` (lines 195-200): no `break`,
so every row with a matching id is rewritten and `int(...)` is applied to
every row's id field. -/
def scanAll (sid : Int) (newRow : Row) : List Row → Except PyError (List Row × Bool)
  | [] => .ok ([], false)
  | r :: rs =>
    match r.session_id with
    | none => .error .valueError
    | some i =>
      match scanAll sid newRow rs with
      | .error e => .error e
      | .ok p =>
        if i = sid then .ok (newRow :: p.1, true) else .ok (r :: p.1, p.2)

/-- Model of `SessionManager.auto_save` (lines 180-233): persist the current
ongoing session, updating its row if present else appending it; any
exception during the row scan is swallowed, leaving the file unchanged.
A no-op when no session is active. -/
def auto_save (L : Ledger) (now : Int) : Ledger :=
  match L.current_session with
  | none => L
  | some s =>
    let rows := (L.rows).getD []
    let newRow := _format_session_for_csv s now true
    match scanAll s.session_id newRow rows with
    | .error _ => L
    | .ok p =>
      { L with rows := some (if p.2 then p.1 else p.1 ++ [newRow]) }

/-- Model of `SessionManager.end_session` (lines 235-295): fixes `end_time = now`
on the in-memory dict, writes the final row (update-if-exists else
append) and clears `current_session`.  An exception during the row scan
is swallowed: the file stays unchanged and the session is NOT cleared
(but its `end_time` was already mutated).  A no-op when no session is
active. -/
def end_session (L : Ledger) (now : Int) : Ledger :=
  match L.current_session with
  | none => L
  | some s =>
    let s' := { s with end_time := some now }
    let rows := (L.rows).getD []
    let newRow := _format_session_for_csv s' now false
    match updateFirst s'.session_id newRow rows with
    | .error _ => { L with current_session := some s' }
    | .ok p =>
      { L with rows := some (if p.2 then p.1 else p.1 ++ [newRow])
               current_session := none }

/-- Model of `SessionManager.mark_finished_now` (lines 347-401): fixes `end_time =
finish_dt or now` and persists the final row, but does NOT clear
`current_session` (to allow the Save/Discard flow); there is no
"finalized" guard, so each call re-fixes `end_time`. -/
def mark_finished_now (L : Ledger) (now : Int) (finish_dt : Option Int) : Ledger :=
  match L.current_session with
  | none => L
  | some s =>
    let end_dt := finish_dt.getD now
    let s' := { s with end_time := some end_dt }
    let rows := (L.rows).getD []
    let newRow := _format_session_for_csv s' now false
    match updateFirst s'.session_id newRow rows with
    | .error _ => { L with current_session := some s' }
    | .ok p =>
      { L with rows := some (if p.2 then p.1 else p.1 ++ [newRow])
               current_session := some s' }

/-- The id filter of `SessionManager.delete_current_session` (line 313):
`[row for row in rows if int(row["session_id"]) != session_id]`, raising
at the first row whose id field does not parse. -/
def pyFilterNe (sid : Int) : List Row → Except PyError (List Row)
  | [] => .ok []
  | r :: rs =>
    match r.session_id with
    | none => .error .valueError
    | some i =>
      match pyFilterNe sid rs with
      | .error e => .error e
      | .ok rs' => .ok (if i = sid then rs' else r :: rs')

/-- Model of `SessionManager.delete_current_session` (lines 297-345): drop the
active session's rows from the log and clear `current_session`; an
exception during the scan is swallowed (file and session unchanged).  A
no-op when no session is active. -/
def delete_current_session (L : Ledger) : Ledger :=
  match L.current_session with
  | none => L
  | some s =>
    let rows := (L.rows).getD []
    match pyFilterNe s.session_id rows with
    | .error _ => L
    | .ok rows' =>
      { L with rows := some rows', current_session := none }

/-- The dict returned by `SessionManager.get_session_data`
(lines 486-521). -/
structure SessionView where
  zone : String
  duration_seconds : Int
  gold_looted : Int
  gold_gained : Int
  deaths : Int
  insurance_cost : Int
  net_profit : Int
  paused : Bool
  paused_time_str : String
  session_duration_str : String
  start_time_str : Int
  end_time_preview_str : Int
deriving DecidableEq

/-- Model of `SessionManager.get_session_data` (lines 486-521) on a session dict:
the pause-aware display snapshot, every derived field recomputed from the
stored accumulators (`now` is `now_override` or the current clock). -/
def get_session_data_s (s : Session) (now : Int) : SessionView :=
  let paused_seconds : Int :=
    s.paused_total_seconds +
      (if s.paused then
          match s.paused_started_at with
          | some st => now - st
          | none => 0
        else 0)
  let effective_seconds : Int := max 0 ((now - s.start_time) - paused_seconds)
  let gold_gained := s.gold_looted + s.manual_adjustments
  let total_insurance := s.deaths * s.insurance_cost
  { zone := s.zone
    duration_seconds := effective_seconds
    gold_looted := s.gold_looted
    gold_gained := gold_gained
    deaths := s.deaths
    insurance_cost := total_insurance
    net_profit := gold_gained - total_insurance
    paused := s.paused
    paused_time_str := fmt_hms paused_seconds
    session_duration_str := fmt_hms effective_seconds
    start_time_str := s.start_time
    end_time_preview_str := now }

/-- Model of `SessionManager.get_session_data` at the manager level: `None` when
no session is active. -/
def get_session_data (L : Ledger) (now : Int) : Option SessionView :=
  (L.current_session).map (fun s => get_session_data_s s now)

/-- Model of `SessionManager._calculate_net_profit` (lines 477-484) on a session
dict. -/
def _calculate_net_profit (s : Session) : Int :=
  (s.gold_looted + s.manual_adjustments) - s.deaths * s.insurance_cost

/-- Model of `SessionManager._get_duration_minutes` (lines 465-475) on a session
dict: the pause-aware effective duration, clamped at 0, in minutes. -/
def _get_duration_minutes_s (s : Session) (now : Int) : Int :=
  let paused : Int :=
    s.paused_total_seconds +
      (if s.paused then
          match s.paused_started_at with
          | some st => now - st
          | none => 0
        else 0)
  Int.fdiv (max 0 ((now - s.start_time) - paused)) 60

/-- ASCII case-folding of one character, as Python's `str.lower` acts on
the ASCII zone names and aliases this repository uses. -/
def pyLowerChar (c : Char) : Char :=
  if 65 ≤ c.toNat ∧ c.toNat ≤ 90 then Char.ofNat (c.toNat + 32) else c

/-- Python's `str.lower` (restricted to its ASCII behaviour). -/
def pyLower (s : String) : String := String.mk (s.data.map pyLowerChar)

/-- The whitespace characters Python's `str.strip` removes (the common
ones). -/
def pySpace (c : Char) : Bool := c = ' ' ∨ c = '\t' ∨ c = '\n' ∨ c = '\r'

/-- Python's `str.strip`: drop whitespace from both ends. -/
def pyStrip (s : String) : String :=
  String.mk (((s.data.dropWhile pySpace).reverse.dropWhile pySpace).reverse)

/-- Python's substring test `needle in hay` on strings, as used by
`GumpManager._filter_zones`. -/
def pyIn (needle hay : String) : Bool :=
  decide (needle.data <:+: hay.data)

/-- The zone mapping `canonical name -> aliases`, in insertion order as a
Python dict iterates it. -/
abbrev ZoneMap := List (String × List String)

/-- Model of `GumpManager._filter_zones` (`_gump_manager.py` lines 230-258):
an empty (or whitespace-only) query matches every zone; otherwise a zone
matches when the lowered, stripped query occurs as a substring of the
lowered canonical name or of any lowered alias. -/
def _filter_zones (zones : ZoneMap) (query : String) : List String :=
  if query == "" || pyStrip query == "" then zones.map (fun z => z.1)
  else
    let query_lower := pyStrip (pyLower query)
    zones.filterMap (fun z =>
      if pyIn query_lower (pyLower z.1) then some z.1
      else if z.2.any (fun a => pyIn query_lower (pyLower a)) then some z.1
      else none)

/-- Model of `GumpManager.get_selected_zone` (lines 431-471), given the stripped
textbox content: exact case-insensitive match against canonical names,
then against aliases, else `(text, False)`; empty text yields
`(None, False)`. -/
def get_selected_zone (zones : ZoneMap) (raw : String) : Option String × Bool :=
  let text := pyStrip raw
  if text == "" then (none, false)
  else
    match zones.find? (fun z => pyLower text == pyLower z.1) with
    | some z => (some z.1, true)
    | none =>
      match zones.find? (fun z => (z.2.map pyLower).contains (pyLower text)) with
      | some z => (some z.1, true)
      | none => (some text, false)

/-- The body of `ZoneManager.add_zone` (`_zone_manager.py` lines
113-134): reject an empty name, keep the map when the name is already a
key, else append the zone with its lowercased name as sole alias.
Returns the new map and the method's boolean result. -/
def add_zone_body (zones : ZoneMap) (zone_name : String) : ZoneMap × Bool :=
  if pyStrip zone_name == "" then (zones, false)
  else
    let name := pyStrip zone_name
    if zones.any (fun z => z.1 == name) then (zones, true)
    else (zones ++ [(name, [pyLower name])], true)

/-- A positional argument of a Python call, for the arity model. -/
inductive PyValue where
  | str (s : String)
  | strList (l : List String)
deriving DecidableEq

/-- A Python call to `ZoneManager.add_zone`: the interpreter binds the
positional arguments to the single declared parameter `zone_name`
(besides `self`) before the body runs; any other argument count raises
`TypeError` and the body never executes. -/
def call_add_zone (zones : ZoneMap) (args : List PyValue) :
    Except PyError (ZoneMap × Bool) :=
  match args with
  | [PyValue.str zone_name] => .ok (add_zone_body zones zone_name)
  | _ => .error .typeError

/-- The confirmed-new-zone branch of `GoldTracker.select_zone`
(`gold_tracker.py` line 467): `self.zone_mgr.add_zone(final_zone_name,
aliases)` — two positional arguments. -/
def select_zone_confirmed_add (zones : ZoneMap) (final_zone_name : String)
    (aliases : List String) : Except PyError (ZoneMap × Bool) :=
  call_add_zone zones [PyValue.str final_zone_name, PyValue.strList aliases]

/-- One driver-tick mutation of the active session, at the time attached
to it in a trace: the loot delta of `update_gold_tracking`, the manual
adjustment of `process_manual_adjustment`, the death increment of
`on_player_death`, or a `toggle_pause` click. -/
inductive Op where
  | goldDelta (d : Int)
  | adjust (a : Int)
  | death
  | togglePause
deriving DecidableEq

/-- Apply one timed operation to the session dict. -/
def execOp (s : Session) (t : Int) : Op → Session
  | .goldDelta d => apply_gold_delta_s s d
  | .adjust a => apply_manual_adjustment_s s a
  | .death => record_death_s s
  | .togglePause => (toggle_pause_s s t).1

/-- Run a timed trace of operations over the session dict. -/
def execOps (s : Session) : List (Int × Op) → Session
  | [] => s
  | e :: rest => execOps (execOp s e.1 e.2) rest

/-- The trace's times are at least `lb` and nondecreasing (the host clock
is monotone across driver ticks). -/
def Chain (lb : Int) : List (Int × Op) → Prop
  | [] => True
  | e :: rest => lb ≤ e.1 ∧ Chain e.1 rest

/-- Any recorded pause marker lies at or before the given time (holds of
every state the driver can reach by time `t`). -/
def StartedLE (s : Session) (t : Int) : Prop :=
  ∀ t0, s.paused_started_at = some t0 → t0 ≤ t

/-! Concrete fixtures shared by witnesses and counterexamples. -/

/-- A concrete active session (id 7, zone "Destard", started at 0). -/
def sampleSession : Session :=
  { session_id := 7
    zone := "Destard"
    start_time := 0
    end_time := none
    initial_gold := 100
    gold_looted := 0
    deaths := 0
    insurance_cost := 30
    manual_adjustments := 0
    notes := ""
    paused := false
    paused_started_at := none
    paused_total_seconds := 0 }

/-- A concrete persisted row with the given id. -/
def sampleRow (i : Int) : Row :=
  { session_id := some i
    zone := "Shame"
    start_time := 0
    end_time := some 1
    session_duration := "00:00:01"
    paused_time := "00:00:00"
    gold_gained := 5
    deaths := 0
    insurance_cost := 0
    net_profit := 5
    notes := ""
    merged := "false"
    merged_from := "" }

/-- A ledger with `sampleSession` active over an empty log. -/
def sampleLedgerActive : Ledger :=
  { rows := some [], current_session := some sampleSession, next_session_id := 8 }

/-- A ledger with no active session. -/
def sampleLedgerIdle : Ledger :=
  { rows := some [sampleRow 1], current_session := none, next_session_id := 2 }

/-- A three-row log containing ids 1, 7 and 9. -/
def sampleLog3 : List Row := [sampleRow 1, sampleRow 7, sampleRow 9]

/-- A ledger with `sampleSession` (id 7) active over `sampleLog3`. -/
def sampleLedger7 : Ledger :=
  { rows := some sampleLog3, current_session := some sampleSession, next_session_id := 10 }

/-! Claim C1 -/

/-- C1 counterexample: with `sampleSession` already active,
`start_session` does not fail with `ActiveSessionExistsError` — it
returns normally — and the active session does change (it is replaced by
the freshly created one). -/
theorem C1_counterexample :
    (start_session sampleLedgerActive "Shame" 0 5).isOk = true
    ∧ ((start_session sampleLedgerActive "Shame" 0 5).toOption.map
        (fun p => p.1.current_session)) ≠ some sampleLedgerActive.current_session := by
  constructor
  · rfl
  · decide

/-- C1 (amended): `start_session` never fails — even when a session is
already active it installs a freshly created session (with id
`next_session_id` and the requested zone) as the current session,
increments `next_session_id`, appends the new session's provisional
ongoing row to the log rows it read (an empty list when the file is
missing), and signals no error; the source defines no
`ActiveSessionExistsError` and performs no active-session check. -/
theorem C1_start_session_always_replaces (L : Ledger) (z : String) (g t : Int) :
    ∃ L' s, start_session L z g t = .ok (L', s)
      ∧ L'.current_session = some s
      ∧ s.session_id = L.next_session_id
      ∧ s.zone = z
      ∧ L'.next_session_id = L.next_session_id + 1
      ∧ L'.rows = some ((L.rows).getD [] ++ [_format_session_for_csv s t true]) :=
  ⟨_, _, rfl, rfl, rfl, rfl, rfl, rfl⟩

/-! Claim C4 -/

/-- C4 counterexample: with no active session, the three mutators do not
fail with `NoActiveSessionError` — each returns normally — and the state
is untouched. -/
theorem C4_counterexample :
    (apply_gold_delta sampleLedgerIdle 5).isOk = true
    ∧ (apply_manual_adjustment sampleLedgerIdle 5).isOk = true
    ∧ (record_death sampleLedgerIdle).isOk = true
    ∧ (apply_gold_delta sampleLedgerIdle 5).toOption = some sampleLedgerIdle
    ∧ (apply_manual_adjustment sampleLedgerIdle 5).toOption = some sampleLedgerIdle
    ∧ (record_death sampleLedgerIdle).toOption = some sampleLedgerIdle := by
  refine ⟨rfl, rfl, rfl, ?_, ?_, ?_⟩ <;> decide

/-- C4 (amended): with no active session, `apply_gold_delta`,
`apply_manual_adjustment` and `record_death` are silent no-ops: each
returns normally with the ledger unchanged (no session or persisted state
is touched), and no error is signalled — the source defines no
`NoActiveSessionError`. -/
theorem C4_mutators_noop_without_session (L : Ledger) (d a : Int)
    (h : L.current_session = none) :
    apply_gold_delta L d = .ok L
    ∧ apply_manual_adjustment L a = .ok L
    ∧ record_death L = .ok L := by
  refine ⟨?_, ?_, ?_⟩ <;>
    simp [apply_gold_delta, apply_manual_adjustment, record_death, h]

/-- C4 witness: the amended theorem applied to the concrete idle
ledger. -/
theorem C4_witness :
    apply_gold_delta sampleLedgerIdle 5 = .ok sampleLedgerIdle
    ∧ apply_manual_adjustment sampleLedgerIdle 3 = .ok sampleLedgerIdle
    ∧ record_death sampleLedgerIdle = .ok sampleLedgerIdle :=
  C4_mutators_noop_without_session sampleLedgerIdle 5 3 rfl

/-! Claim C10 -/

/-- C10: the confirmed-new-zone branch of `GoldTracker.select_zone`
invokes `ZoneManager.add_zone` with two positional arguments (final name
and alias list) while `add_zone` declares a single parameter, so the call
always raises `TypeError`; the zone directory is never updated (the error
result carries no new mapping and the method body never runs). -/
theorem C10_select_zone_add_zone_type_error (zones : ZoneMap)
    (final_zone_name : String) (aliases : List String) :
    select_zone_confirmed_add zones final_zone_name aliases
      = .error .typeError := rfl

/-! Claim C2 -/

/-- With no active session, `end_session` is a no-op. -/
lemma end_session_noop (M : Ledger) (t : Int) (h : M.current_session = none) :
    end_session M t = M := by
  unfold end_session
  rw [h]

/-- Helper: `updateFirst` succeeds on a log whose ids all parse, and when it
reports a match the replacement row is in its output. -/
lemma updateFirst_ok (sid : Int) (newRow : Row) :
    ∀ rows : List Row, (∀ r ∈ rows, r.session_id ≠ none) →
      ∃ rows' found, updateFirst sid newRow rows = .ok (rows', found)
        ∧ (found = true → newRow ∈ rows') := by
  intro rows
  induction rows with
  | nil => exact fun _ => ⟨[], false, rfl, by simp⟩
  | cons x xs ih =>
    intro hp
    obtain ⟨xsr, xsf, heq, hmem⟩ := ih (fun r hr => hp r (List.mem_cons_of_mem _ hr))
    cases hx : x.session_id with
    | none => exact absurd hx (hp x (List.mem_cons_self _ _))
    | some i =>
      by_cases hi : i = sid
      · exact ⟨newRow :: xs, true, by simp [updateFirst, hx, hi],
          fun _ => List.mem_cons_self _ _⟩
      · exact ⟨x :: xsr, xsf, by simp [updateFirst, hx, hi, heq],
          fun hf => List.mem_cons_of_mem _ (hmem hf)⟩

/-- C2 counterexample: `mark_finished_now` — one of the two finalize
paths the claim covers — re-fixes `end_time` on every call: after a first
call at time 10 and a second at time 20, the in-memory `end_time` and the
persisted row's `end_time` have both moved from 10 to 20. -/
theorem C2_counterexample :
    ((mark_finished_now sampleLedgerActive 10 none).current_session.map
        Session.end_time = some (some 10))
    ∧ ((mark_finished_now (mark_finished_now sampleLedgerActive 10 none) 20
        none).current_session.map Session.end_time = some (some 20))
    ∧ ((mark_finished_now sampleLedgerActive 10 none).rows.map
        (fun rs => rs.map Row.end_time) = some [some 10])
    ∧ ((mark_finished_now (mark_finished_now sampleLedgerActive 10 none) 20
        none).rows.map (fun rs => rs.map Row.end_time) = some [some 20]) := by
  refine ⟨?_, ?_, ?_, ?_⟩ <;> decide

/-- C2 (amended): the finalize path that transitions the Ledger to "no
active session" (`end_session`) fixes `end_time = now` in the final row it
persists and clears the session, so any subsequent `end_session` call is
a no-op that leaves the persisted `end_time` unchanged — its idempotence
comes from the cleared session, not from a "finalized" flag;
`mark_finished_now`, which keeps the session, re-fixes `end_time` on
every call. -/
theorem C2_end_session_idempotent (L : Ledger) (s : Session) (rows : List Row)
    (t1 t2 : Int)
    (hs : L.current_session = some s) (hr : L.rows = some rows)
    (hp : ∀ r ∈ rows, r.session_id ≠ none) :
    (∃ rows', (end_session L t1).rows = some rows'
        ∧ _format_session_for_csv { s with end_time := some t1 } t1 false ∈ rows')
    ∧ (end_session L t1).current_session = none
    ∧ end_session (end_session L t1) t2 = end_session L t1 := by
  obtain ⟨rows', found, heq, hmem⟩ :=
    updateFirst_ok s.session_id
      (_format_session_for_csv { s with end_time := some t1 } t1 false) rows hp
  have hrun : end_session L t1
      = { L with
            rows := some (if found then rows'
              else rows' ++ [_format_session_for_csv { s with end_time := some t1 } t1 false])
            current_session := none } := by
    unfold end_session
    rw [hs, hr]
    simp only [Option.getD_some, heq]
  refine ⟨?_, ?_, ?_⟩
  · refine ⟨_, by rw [hrun], ?_⟩
    cases found with
    | true => exact hmem rfl
    | false => exact List.mem_append_right _ (List.mem_cons_self _ _)
  · rw [hrun]
  · exact end_session_noop _ t2 (by rw [hrun])

/-- C2 witness: the amended theorem at the concrete active ledger. -/
theorem C2_witness :
    (∃ rows', (end_session sampleLedgerActive 10).rows = some rows'
        ∧ _format_session_for_csv { sampleSession with end_time := some 10 } 10 false
            ∈ rows')
    ∧ (end_session sampleLedgerActive 10).current_session = none
    ∧ end_session (end_session sampleLedgerActive 10) 20
        = end_session sampleLedgerActive 10 :=
  C2_end_session_idempotent sampleLedgerActive sampleSession [] 10 20 rfl rfl
    (by simp)

/-! Claim C3 -/

/-- C3: after any finite trace of mutator calls, every derived financial
field is recomputed from the stored accumulators of the resulting
session: `net_profit = (gold_looted + manual_adjustments) - deaths *
insurance_cost`, with `gold_gained` and the insurance total likewise
derived; neither the session dict nor the view stores a precomputed
profit (both `_calculate_net_profit` and `get_session_data_s` recompute
on each read). -/
theorem C3_net_profit_recomputed (s : Session) (ops : List (Int × Op)) (now : Int) :
    _calculate_net_profit (execOps s ops)
        = ((execOps s ops).gold_looted + (execOps s ops).manual_adjustments)
          - (execOps s ops).deaths * (execOps s ops).insurance_cost
    ∧ (get_session_data_s (execOps s ops) now).net_profit
        = ((execOps s ops).gold_looted + (execOps s ops).manual_adjustments)
          - (execOps s ops).deaths * (execOps s ops).insurance_cost
    ∧ (get_session_data_s (execOps s ops) now).gold_gained
        = (execOps s ops).gold_looted + (execOps s ops).manual_adjustments
    ∧ (get_session_data_s (execOps s ops) now).insurance_cost
        = (execOps s ops).deaths * (execOps s ops).insurance_cost :=
  ⟨rfl, rfl, rfl, rfl⟩

/-! Claim C6 -/

/-- C6: `toggle_pause` returns the new (flipped) `paused` state for any
active session; from an unpaused session with zero accumulated pause, the
first call at `t1` enters pause and records `paused_started_at = t1`, and
the second call at `t2` leaves pause, clears the marker and accumulates
`paused_total_seconds = t2 - t1`. -/
theorem C6_toggle_pause_pair (L M : Ledger) (s u : Session) (t1 t2 tm : Int)
    (hs : L.current_session = some s) (hp : s.paused = false)
    (h0 : s.paused_total_seconds = 0)
    (hu : M.current_session = some u) :
    (toggle_pause M tm).2 = !u.paused
    ∧ (toggle_pause L t1).2 = true
    ∧ (∃ s1, (toggle_pause L t1).1.current_session = some s1
        ∧ s1.paused = true ∧ s1.paused_started_at = some t1)
    ∧ (toggle_pause (toggle_pause L t1).1 t2).2 = false
    ∧ (∃ s2, (toggle_pause (toggle_pause L t1).1 t2).1.current_session = some s2
        ∧ s2.paused = false ∧ s2.paused_started_at = none
        ∧ s2.paused_total_seconds = t2 - t1) := by
  refine ⟨?_, ?_, ?_, ?_, ?_⟩
  · cases hup : u.paused <;> simp [toggle_pause, toggle_pause_s, hu, hup]
  · simp [toggle_pause, toggle_pause_s, hs, hp]
  · refine ⟨{ s with paused := true, paused_started_at := some t1 }, ?_, rfl, rfl⟩
    simp [toggle_pause, toggle_pause_s, hs, hp]
  · simp [toggle_pause, toggle_pause_s, hs, hp]
  · have hs2 : (toggle_pause (toggle_pause L t1).1 t2).1.current_session
        = some { s with paused := false, paused_started_at := none,
                        paused_total_seconds := s.paused_total_seconds + (t2 - t1) } := by
      simp [toggle_pause, toggle_pause_s, hs, hp]
    exact ⟨_, hs2, rfl, rfl, by simp [h0]⟩

/-- C6 witness: the pair of calls at times 3 and 10 on the concrete
active ledger accumulates 7 paused seconds. -/
theorem C6_witness :
    (toggle_pause sampleLedgerActive 4).2 = !sampleSession.paused
    ∧ (toggle_pause sampleLedgerActive 3).2 = true
    ∧ (∃ s1, (toggle_pause sampleLedgerActive 3).1.current_session = some s1
        ∧ s1.paused = true ∧ s1.paused_started_at = some 3)
    ∧ (toggle_pause (toggle_pause sampleLedgerActive 3).1 10).2 = false
    ∧ (∃ s2, (toggle_pause (toggle_pause sampleLedgerActive 3).1 10).1.current_session
          = some s2
        ∧ s2.paused = false ∧ s2.paused_started_at = none
        ∧ s2.paused_total_seconds = 10 - 3) :=
  C6_toggle_pause_pair sampleLedgerActive sampleLedgerActive sampleSession
    sampleSession 3 10 4 rfl rfl rfl rfl

/-! Claim C7 -/

/-- Helper: `toggle_pause_s` never decreases `paused_total_seconds` when the
recorded pause marker is at or before the toggle time. -/
lemma toggle_pause_s_mono (s : Session) (t : Int) (h : StartedLE s t) :
    s.paused_total_seconds ≤ ((toggle_pause_s s t).1).paused_total_seconds := by
  unfold toggle_pause_s
  cases hp : s.paused with
  | false => simp
  | true =>
    cases hst : s.paused_started_at with
    | none => simp
    | some st =>
      have hle := h st hst
      simp [hst]
      omega

/-- One timed operation never decreases `paused_total_seconds` and keeps
any pause marker at or before its own time. -/
lemma execOp_mono (s : Session) (t : Int) (o : Op) (h : StartedLE s t) :
    s.paused_total_seconds ≤ (execOp s t o).paused_total_seconds
      ∧ StartedLE (execOp s t o) t := by
  cases o with
  | goldDelta d => exact ⟨le_rfl, h⟩
  | adjust a => exact ⟨le_rfl, h⟩
  | death => exact ⟨le_rfl, h⟩
  | togglePause =>
    refine ⟨toggle_pause_s_mono s t h, ?_⟩
    intro t0 ht0
    unfold execOp toggle_pause_s at ht0
    cases hp : s.paused with
    | false =>
      simp [hp] at ht0
      omega
    | true => simp [hp] at ht0

/-- Across any monotonically timed trace, `paused_total_seconds` never
decreases. -/
lemma execOps_paused_mono :
    ∀ (evs : List (Int × Op)) (s : Session) (lb : Int),
      StartedLE s lb → Chain lb evs →
      s.paused_total_seconds ≤ (execOps s evs).paused_total_seconds
  | [], _, _, _, _ => le_rfl
  | (t, o) :: rest, s, lb, h1, h2 => by
    obtain ⟨hlb, hc⟩ := h2
    have hst : StartedLE s t := fun t0 ht0 => le_trans (h1 t0 ht0) hlb
    obtain ⟨hmono, hinv⟩ := execOp_mono s t o hst
    exact le_trans hmono (execOps_paused_mono rest (execOp s t o) t hinv hc)

/-- C7: every read clamps the effective elapsed time at zero — the
display snapshot's `duration_seconds`, the minute-granularity duration
query, and the duration column of the persisted row (which formats a
clamped nonnegative value) — and `paused_total_seconds` never decreases
across any monotonically timed trace of mutations, being reset to 0 only
by the fresh session that `start_session` creates. -/
theorem C7_elapsed_clamped_pause_monotone (s : Session) (now lb : Int)
    (evs : List (Int × Op)) (og : Bool) (L0 : Ledger) (z : String) (g t : Int)
    (h1 : StartedLE s lb) (h2 : Chain lb evs) :
    0 ≤ (get_session_data_s s now).duration_seconds
    ∧ 0 ≤ _get_duration_minutes_s s now
    ∧ (∃ k, 0 ≤ k ∧ (_format_session_for_csv s now og).session_duration = fmt_hms k)
    ∧ s.paused_total_seconds ≤ (execOps s evs).paused_total_seconds
    ∧ (∃ L' s0, start_session L0 z g t = .ok (L', s0)
        ∧ s0.paused_total_seconds = 0) := by
  refine ⟨le_max_left 0 _, ?_, ⟨_, le_max_left 0 _, rfl⟩,
    execOps_paused_mono evs s lb h1 h2, ⟨_, _, rfl, rfl⟩⟩
  exact Int.fdiv_nonneg (le_max_left 0 _) (by norm_num)

/-- C7 witness: the theorem at a concrete session and a concrete
two-toggle trace. -/
theorem C7_witness :
    0 ≤ (get_session_data_s sampleSession 100).duration_seconds
    ∧ 0 ≤ _get_duration_minutes_s sampleSession 100
    ∧ (∃ k, 0 ≤ k ∧ (_format_session_for_csv sampleSession 100 true).session_duration
          = fmt_hms k)
    ∧ sampleSession.paused_total_seconds
        ≤ (execOps sampleSession [(2, Op.togglePause), (5, Op.togglePause)]).paused_total_seconds
    ∧ (∃ L' s0, start_session sampleLedgerIdle "Shame" 0 0 = .ok (L', s0)
        ∧ s0.paused_total_seconds = 0) :=
  C7_elapsed_clamped_pause_monotone sampleSession 100 0
    [(2, Op.togglePause), (5, Op.togglePause)] true sampleLedgerIdle "Shame" 0 0
    (by intro t0 ht0; simp [sampleSession] at ht0)
    ⟨by norm_num, by norm_num, trivial⟩

/-! Claim C5 -/

/-- The id-scan accumulator never goes below its starting value. -/
lemma le_maxIdAux (rows : List Row) : ∀ acc : Int, acc ≤ maxIdAux acc rows := by
  induction rows with
  | nil => exact fun _ => le_rfl
  | cons r rs ih =>
    intro acc
    simp only [maxIdAux]
    cases hr : r.session_id with
    | none => exact ih acc
    | some i => exact le_trans (le_max_left acc i) (ih (max acc i))

/-- Every parsed id in the log is bounded by the id scan's result. -/
lemma mem_le_maxIdAux (rows : List Row) (r : Row) (i : Int)
    (hr : r ∈ rows) (hi : r.session_id = some i) :
    ∀ acc : Int, i ≤ maxIdAux acc rows := by
  induction rows with
  | nil => cases hr
  | cons x xs ih =>
    intro acc
    simp only [maxIdAux]
    rcases List.mem_cons.mp hr with h | h
    · subst h
      rw [hi]
      exact le_trans (le_max_right acc i) (le_maxIdAux xs (max acc i))
    · cases hx : x.session_id with
      | none => exact ih h acc
      | some j => exact ih h (max acc j)

/-- Appending a row with a parsed id folds that id into the scan
result. -/
lemma maxIdAux_append_some (r : Row) (i : Int) (hr : r.session_id = some i) :
    ∀ (rows : List Row) (acc : Int),
      maxIdAux acc (rows ++ [r]) = max (maxIdAux acc rows) i := by
  intro rows
  induction rows with
  | nil =>
    intro acc
    simp [maxIdAux, hr]
  | cons x xs ih =>
    intro acc
    simp only [List.cons_append, maxIdAux]
    cases hx : x.session_id <;> exact ih _

/-- On a log whose ids all parse, the `auto_save` scan succeeds, its
output scans to the same maximum id, and a reported match means the
target id already occurs in the log. -/
lemma scanAll_spec (sid : Int) (newRow : Row) (hnew : newRow.session_id = some sid) :
    ∀ rows : List Row, (∀ r ∈ rows, r.session_id ≠ none) →
      ∃ rows' found, scanAll sid newRow rows = .ok (rows', found)
        ∧ (∀ acc : Int, maxIdAux acc rows' = maxIdAux acc rows)
        ∧ (found = true → ∃ r ∈ rows, r.session_id = some sid) := by
  intro rows
  induction rows with
  | nil => exact fun _ => ⟨[], false, rfl, fun _ => rfl, by simp⟩
  | cons x xs ih =>
    intro hp
    obtain ⟨xsr, xsf, heq, hmax, hfound⟩ :=
      ih (fun r hr => hp r (List.mem_cons_of_mem _ hr))
    cases hx : x.session_id with
    | none => exact absurd hx (hp x (List.mem_cons_self _ _))
    | some i =>
      by_cases hi : i = sid
      · refine ⟨newRow :: xsr, true, ?_, ?_, ?_⟩
        · simp [scanAll, hx, heq, hi]
        · intro acc
          simp only [maxIdAux, hnew, hx, hi]
          exact hmax _
        · exact fun _ => ⟨x, List.mem_cons_self _ _, by rw [hx, hi]⟩
      · refine ⟨x :: xsr, xsf, ?_, ?_, ?_⟩
        · simp [scanAll, hx, heq, hi]
        · intro acc
          simp only [maxIdAux, hx]
          exact hmax _
        · intro hf
          obtain ⟨r, hr, hrs⟩ := hfound hf
          exact ⟨r, List.mem_cons_of_mem _ hr, hrs⟩

/-- C5: the durable-log round trip of id assignment.  `_get_next_id` is
one plus the log's maximum stored id (0 for a missing log or when no id
parses); and after `auto_save` persists the active session's row into a
well-formed log whose ids it dominates, a fresh manager over the
resulting log (`initLedger`) derives `next_session_id =
session_id + 1`, i.e. the new maximum stored id plus one. -/
theorem C5_next_id_roundtrip (optRows : Option (List Row)) (rows : List Row)
    (s : Session) (n now : Int)
    (hp : ∀ r ∈ rows, r.session_id ≠ none)
    (hle : maxIdAux 0 rows ≤ s.session_id) :
    (_get_next_id optRows
        = (match optRows with
           | none => 0
           | some rs => maxIdAux 0 rs) + 1)
    ∧ (_get_next_id ((auto_save ⟨some rows, some s, n⟩ now).rows)
        = s.session_id + 1)
    ∧ ((initLedger ((auto_save ⟨some rows, some s, n⟩ now).rows)).next_session_id
        = s.session_id + 1) := by
  have hnew : (_format_session_for_csv s now true).session_id = some s.session_id := rfl
  obtain ⟨rows', found, heq, hmax, hfound⟩ :=
    scanAll_spec s.session_id (_format_session_for_csv s now true) hnew rows hp
  have hrows : (auto_save ⟨some rows, some s, n⟩ now).rows
      = some (if found then rows'
          else rows' ++ [_format_session_for_csv s now true]) := by
    unfold auto_save
    simp only [Option.getD_some, heq]
  have hgn : ∀ rs : List Row, _get_next_id (some rs) = maxIdAux 0 rs + 1 :=
    fun _ => rfl
  have hmain : _get_next_id ((auto_save ⟨some rows, some s, n⟩ now).rows)
      = s.session_id + 1 := by
    rw [hrows]
    cases hf : found with
    | true =>
      obtain ⟨r, hr, hrs⟩ := hfound hf
      have h1 : s.session_id ≤ maxIdAux 0 rows := mem_le_maxIdAux rows r _ hr hrs 0
      rw [if_pos rfl, hgn, hmax 0]
      omega
    | false =>
      rw [if_neg (by simp), hgn, maxIdAux_append_some _ _ hnew, hmax 0,
        max_eq_right hle]
  refine ⟨?_, hmain, hmain⟩
  unfold _get_next_id
  cases optRows <;> rfl

/-- C5 witness: the theorem at a concrete two-row log (max id 2) and the
concrete session with id 7. -/
theorem C5_witness :
    (_get_next_id (some sampleLog3)
        = (match some sampleLog3 with
           | none => 0
           | some rs => maxIdAux 0 rs) + 1)
    ∧ (_get_next_id ((auto_save ⟨some [sampleRow 1, sampleRow 2], some sampleSession,
          8⟩ 100).rows) = sampleSession.session_id + 1)
    ∧ ((initLedger ((auto_save ⟨some [sampleRow 1, sampleRow 2], some sampleSession,
          8⟩ 100).rows)).next_session_id = sampleSession.session_id + 1) :=
  C5_next_id_roundtrip (some sampleLog3) [sampleRow 1, sampleRow 2] sampleSession 8 100
    (by decide) (by decide)

/-! Claim C8 -/

/-- On a log whose ids all parse, the discard scan is exactly a filter
keeping the rows whose id differs from the target. -/
lemma pyFilterNe_ok (sid : Int) :
    ∀ rows : List Row, (∀ r ∈ rows, r.session_id ≠ none) →
      pyFilterNe sid rows
        = .ok (rows.filter (fun r => decide (r.session_id ≠ some sid))) := by
  intro rows
  induction rows with
  | nil => exact fun _ => rfl
  | cons x xs ih =>
    intro hp
    have hxs := ih (fun r hr => hp r (List.mem_cons_of_mem _ hr))
    cases hx : x.session_id with
    | none => exact absurd hx (hp x (List.mem_cons_self _ _))
    | some i =>
      by_cases hi : i = sid
      · simp [pyFilterNe, hx, hxs, hi, List.filter_cons]
      · simp [pyFilterNe, hx, hxs, hi, List.filter_cons]

/-- C8: on a well-formed log, `delete_current_session` removes exactly
the rows whose id equals the active session's id — every other row
survives with all its fields unchanged and in order — and clears the
active session; with no active session it is a no-op on both the log and
the manager state. -/
theorem C8_discard_filters_by_id (L M : Ledger) (s : Session) (rows : List Row)
    (hs : L.current_session = some s) (hr : L.rows = some rows)
    (hp : ∀ r ∈ rows, r.session_id ≠ none)
    (hM : M.current_session = none) :
    (delete_current_session L).rows
        = some (rows.filter (fun r => decide (r.session_id ≠ some s.session_id)))
    ∧ (delete_current_session L).current_session = none
    ∧ delete_current_session M = M := by
  have hrun : delete_current_session L
      = { L with
            rows := some (rows.filter (fun r => decide (r.session_id ≠ some s.session_id)))
            current_session := none } := by
    unfold delete_current_session
    rw [hs, hr]
    simp only [Option.getD_some, pyFilterNe_ok s.session_id rows hp]
  refine ⟨by rw [hrun], by rw [hrun], ?_⟩
  unfold delete_current_session
  rw [hM]

/-- C8 witness: discarding the active session with id 7 over the
three-row log keeps exactly the rows with ids 1 and 9. -/
theorem C8_witness :
    (delete_current_session sampleLedger7).rows
        = some (sampleLog3.filter
            (fun r => decide (r.session_id ≠ some sampleSession.session_id)))
    ∧ (delete_current_session sampleLedger7).current_session = none
    ∧ delete_current_session sampleLedgerIdle = sampleLedgerIdle :=
  C8_discard_filters_by_id sampleLedger7 sampleLedgerIdle sampleSession sampleLog3
    rfl rfl (by decide) rfl

/-! Claim C9 -/

/-- The zone mapping of the claim's scenario. -/
def zonesDestard : ZoneMap := [("Destard", ["dest"])]

/-- C9: the zone-picker's filter and resolution.  An empty query matches
every zone; a selection text matching no canonical name exactly
(case-insensitively) and no alias resolves to `(text, False)`; and on the
scenario mapping, `_filter_zones "dest"` returns `["Destard"]` (substring
match), resolution of `"dest"` yields `("Destard", True)` via the alias,
and resolution of `"Covetous"` yields `("Covetous", False)`. -/
theorem C9_filter_and_resolve (zones : ZoneMap) (raw : String)
    (hne : (pyStrip raw == "") = false)
    (hcanon : zones.find? (fun z => pyLower (pyStrip raw) == pyLower z.1) = none)
    (halias : zones.find?
        (fun z => (z.2.map pyLower).contains (pyLower (pyStrip raw))) = none) :
    _filter_zones zones "" = zones.map (fun z => z.1)
    ∧ get_selected_zone zones raw = (some (pyStrip raw), false)
    ∧ _filter_zones zonesDestard "dest" = ["Destard"]
    ∧ get_selected_zone zonesDestard "dest" = (some "Destard", true)
    ∧ get_selected_zone zonesDestard "Covetous" = (some "Covetous", false) := by
  refine ⟨by simp [_filter_zones], ?_, by decide, by decide, by decide⟩
  simp only [get_selected_zone, hne]
  rw [if_neg (by simp)]
  simp only [hcanon]
  simp only [halias]

/-- C9 witness: the theorem at the scenario mapping with the unknown
selection text `"Covetous"`. -/
theorem C9_witness :
    _filter_zones zonesDestard "" = zonesDestard.map (fun z => z.1)
    ∧ get_selected_zone zonesDestard "Covetous"
        = (some (pyStrip "Covetous"), false)
    ∧ _filter_zones zonesDestard "dest" = ["Destard"]
    ∧ get_selected_zone zonesDestard "dest" = (some "Destard", true)
    ∧ get_selected_zone zonesDestard "Covetous" = (some "Covetous", false) :=
  C9_filter_and_resolve zonesDestard "Covetous" (by decide) (by decide) (by decide)

end GoldTracker
